import Mathlib

/-!
Verification of the Note data model of a Django note-taking app
(`notes/models.py` and `notes/migrations/0001_initial.py`).

The model declares four fields on `Note`:
  * `title = models.TextField(null=True, blank=True)`
  * `content = models.TextField(null=True, blank=True)`
  * `last_updated_on = models.DateTimeField(auto_now=True)`
  * `is_active = models.BooleanField(default=True)`
with Django adding an implicit `BigAutoField` primary key `id`, and
`__str__` returning `self.title`.

We shallowly embed the store semantics these declarations induce:
timestamps are naturals, nullable text fields are `Option String`,
`auto_now=True` means every save overwrites `last_updated_on` with the
current time (any caller-supplied value is ignored), `BigAutoField`
assigns fresh strictly increasing ids, and soft delete is an update
setting `is_active := false`.
-/

/-- A persisted `Note` row.  `title`/`content` are nullable
(`TextField(null=True)`), `last_updated_on` is a timestamp (modelled as a
natural number), `is_active` the soft-delete flag. -/
structure Note where
  id : Nat
  title : Option String
  content : Option String
  last_updated_on : Nat
  is_active : Bool
deriving Repr, DecidableEq

/-- The Note store: the auto-increment counter and the rows in creation
order. -/
structure NoteStore where
  nextId : Nat
  rows : List Note
deriving Repr, DecidableEq

/-- The store right after the initial migration: no rows, auto-increment
counter at 1 (SQL auto-increment starts at 1). -/
def emptyStore : NoteStore := ⟨1, []⟩

/-- Creating a `Note`.  `title` and `content` are optional
(`null=True, blank=True`); `isActive` defaults to `true`
(`default=True`) when not explicitly supplied; `auto_now=True` sets
`last_updated_on` to the current time `now`, ignoring any caller-supplied
timestamp `clientLU`; the `BigAutoField` assigns the next id.  Returns
the updated store and the created row. -/
def createNote (s : NoteStore) (title content : Option String)
    (isActive : Option Bool) (clientLU : Option Nat) (now : Nat) :
    NoteStore × Note :=
  let n : Note :=
    { id := s.nextId, title := title, content := content,
      last_updated_on := now, is_active := isActive.getD true }
  (⟨s.nextId + 1, s.rows ++ [n]⟩, n)

/-- Saving new field values onto an existing row: each supplied field
replaces the old one, and `auto_now=True` overwrites `last_updated_on`
with the save time `now` unconditionally.  The primary key is immutable. -/
def saveFields (newTitle newContent : Option (Option String))
    (newActive : Option Bool) (now : Nat) (r : Note) : Note :=
  { r with
      title := newTitle.getD r.title,
      content := newContent.getD r.content,
      is_active := newActive.getD r.is_active,
      last_updated_on := now }

/-- Updating the row with id `i` (a no-op when no row has that id).  Any
caller-supplied `last_updated_on` value `clientLU` is ignored: `auto_now`
stamps the save time `now`. -/
def updateNote (s : NoteStore) (i : Nat)
    (newTitle newContent : Option (Option String)) (newActive : Option Bool)
    (clientLU : Option Nat) (now : Nat) : NoteStore :=
  ⟨s.nextId,
    s.rows.map fun r =>
      if r.id == i then saveFields newTitle newContent newActive now r else r⟩

/-- Logical deletion: "To delete a note, we wil simply set is_active to
False" — an update writing `is_active := false` (and hence, via
`auto_now`, refreshing `last_updated_on`). -/
def softDelete (s : NoteStore) (i : Nat) (now : Nat) : NoteStore :=
  updateNote s i none none (some false) none now

/-- Read by id: the row whose primary key is `i`, if any. -/
def getNote (s : NoteStore) (i : Nat) : Option Note :=
  s.rows.find? fun r => r.id == i

/-- `Note.__str__`: `return self.title`.  The result is the `title` field
itself; `none` models the Python `TypeError` raised when `str()` is
requested of a note whose `title` is `None` (no text value is produced). -/
def noteStr (n : Note) : Option String :=
  n.title

/-- The write operations of the store, each carrying the wall-clock time
at which it executes. -/
inductive Op where
  | create (title content : Option String) (isActive : Option Bool)
      (clientLU : Option Nat) (now : Nat)
  | update (i : Nat) (newTitle newContent : Option (Option String))
      (newActive : Option Bool) (clientLU : Option Nat) (now : Nat)
  | softDel (i : Nat) (now : Nat)
deriving Repr, DecidableEq

/-- The wall-clock time of an operation. -/
def Op.time : Op → Nat
  | .create _ _ _ _ now => now
  | .update _ _ _ _ _ now => now
  | .softDel _ now => now

/-- Executing one operation on the store. -/
def execOp (s : NoteStore) : Op → NoteStore
  | .create t c a clu now => (createNote s t c a clu now).1
  | .update i nt nc na clu now => updateNote s i nt nc na clu now
  | .softDel i now => softDelete s i now

/-- Executing a sequence of operations, oldest first. -/
def execOps (s : NoteStore) : List Op → NoteStore
  | [] => s
  | op :: ops => execOps (execOp s op) ops

/-- The ordering used to list notes: by `last_updated_on`
("Notes will be sorted using this field"). -/
def luLE (a b : Note) : Prop :=
  a.last_updated_on ≤ b.last_updated_on

instance : DecidableRel luLE := fun a b =>
  Nat.decLe a.last_updated_on b.last_updated_on

instance : IsTotal Note luLE :=
  ⟨fun a b => Nat.le_total a.last_updated_on b.last_updated_on⟩

instance : IsTrans Note luLE :=
  ⟨fun _ _ _ hab hbc => Nat.le_trans hab hbc⟩

/-- Modelled from the spec: the listing operation of the Note store (the
view code performing it is absent from the given source; only the model
comment "Notes will be sorted using this field" and the spec's "listable
sorted by `last_updated_on`" describe it).  It returns the rows sorted by
`last_updated_on`. -/
def listNotes (s : NoteStore) : List Note :=
  s.rows.insertionSort luLE

/-- The id-uniqueness invariant of the store: row ids are strictly
increasing in creation order, and all of them are below the
auto-increment counter. -/
def StoreInv (s : NoteStore) : Prop :=
  (s.rows.map Note.id).Pairwise (· < ·) ∧ ∀ n ∈ s.rows, n.id < s.nextId

/-! Schema declarations, for comparing the model with its migration. -/

/-- The column types occurring in the schema. -/
inductive FieldType where
  | bigAuto
  | text
  | dateTime
  | boolean
deriving DecidableEq, Repr

/-- One field declaration: its name, column type, `null=`/`blank=`
options, `auto_now=` option, boolean default (when given), and the
`primary_key=`/`auto_created=` markers. -/
structure FieldDecl where
  name : String
  ftype : FieldType
  nullable : Bool
  blank : Bool
  auto_now : Bool
  boolDefault : Option Bool
  primary_key : Bool
  auto_created : Bool
deriving DecidableEq, Repr

/-- The fields written on the `Note` model class in `notes/models.py`:
`title = TextField(null=True, blank=True)`,
`content = TextField(null=True, blank=True)`,
`last_updated_on = DateTimeField(auto_now=True)`,
`is_active = BooleanField(default=True)`. -/
def modelNoteFields : List FieldDecl :=
  [⟨"title", .text, true, true, false, none, false, false⟩,
   ⟨"content", .text, true, true, false, none, false, false⟩,
   ⟨"last_updated_on", .dateTime, false, false, true, none, false, false⟩,
   ⟨"is_active", .boolean, false, false, false, some true, false, false⟩]

/-- The `id` column of the migration:
`models.BigAutoField(auto_created=True, primary_key=True, ...)`. -/
def migrationIdField : FieldDecl :=
  ⟨"id", .bigAuto, false, false, false, none, true, true⟩

/-- The columns of `migrations.CreateModel(name='Note', fields=[...])` in
`notes/migrations/0001_initial.py`, transcribed in order. -/
def migrationNoteFields : List FieldDecl :=
  [⟨"id", .bigAuto, false, false, false, none, true, true⟩,
   ⟨"title", .text, true, true, false, none, false, false⟩,
   ⟨"content", .text, true, true, false, none, false, false⟩,
   ⟨"last_updated_on", .dateTime, false, false, true, none, false, false⟩,
   ⟨"is_active", .boolean, false, false, false, some true, false, false⟩]

/-- A concrete row used to instantiate theorems with hypotheses. -/
def sampleNote : Note :=
  ⟨1, some "t", some "c", 5, true⟩

/-- A concrete one-row store used to instantiate theorems with
hypotheses. -/
def sampleStore : NoteStore :=
  ⟨2, [sampleNote]⟩

/-! Helper lemmas. -/

/-- Saving field values never changes the primary key. -/
theorem saveFields_id (nt nc : Option (Option String)) (na : Option Bool)
    (now : Nat) (r : Note) : (saveFields nt nc na now r).id = r.id :=
  rfl

/-- The per-row function applied by `updateNote` never changes the
primary key. -/
theorem updateFun_id (j : Nat) (nt nc : Option (Option String))
    (na : Option Bool) (now : Nat) (r : Note) :
    (if r.id == j then saveFields nt nc na now r else r).id = r.id := by
  cases hj : (r.id == j) with
  | true => simp [hj, saveFields]
  | false => simp [hj]

/-- Reading id `i` after an update of id `j` returns the old row with the
update function applied. -/
theorem getNote_updateNote (s : NoteStore) (i j : Nat)
    (nt nc : Option (Option String)) (na : Option Bool) (clu : Option Nat)
    (now : Nat) :
    getNote (updateNote s j nt nc na clu now) i =
      (getNote s i).map
        (fun r => if r.id == j then saveFields nt nc na now r else r) := by
  have hp : ((fun r : Note => r.id == i) ∘
      fun r => if r.id == j then saveFields nt nc na now r else r) =
      (fun r : Note => r.id == i) := by
    funext r
    simp only [Function.comp_apply]
    rw [updateFun_id]
  unfold getNote updateNote
  rw [List.find?_map, hp]

/-- Reading the updated id after an update returns the saved row. -/
theorem getNote_updateNote_self (s : NoteStore) (i : Nat)
    (nt nc : Option (Option String)) (na : Option Bool) (clu : Option Nat)
    (now : Nat) (n : Note) (hn : getNote s i = some n) :
    getNote (updateNote s i nt nc na clu now) i =
      some (saveFields nt nc na now n) := by
  rw [getNote_updateNote, hn]
  have hid : (n.id == i) = true :=
    @List.find?_some Note (fun r : Note => r.id == i) n s.rows hn
  simp [hid]
  intro hne
  exact absurd (beq_iff_eq.mp hid) hne

/-- `createNote` preserves the id invariant. -/
theorem storeInv_createNote (s : NoteStore) (t c : Option String)
    (a : Option Bool) (clu : Option Nat) (now : Nat) (h : StoreInv s) :
    StoreInv (createNote s t c a clu now).1 := by
  obtain ⟨hpw, hlt⟩ := h
  constructor
  · show ((s.rows ++ [_]).map Note.id).Pairwise (· < ·)
    rw [List.map_append, List.pairwise_append]
    refine ⟨hpw, List.pairwise_singleton _ _, ?_⟩
    intro x hx y hy
    obtain ⟨r, hr, hrx⟩ := List.mem_map.mp hx
    have hy' : y = s.nextId := List.mem_singleton.mp hy
    rw [← hrx, hy']
    exact hlt r hr
  · intro n hn
    rcases List.mem_append.mp hn with hold | hnew
    · exact Nat.lt_succ_of_lt (hlt n hold)
    · rw [List.mem_singleton.mp hnew]
      exact Nat.lt_succ_self _

/-- `updateNote` preserves the id invariant. -/
theorem storeInv_updateNote (s : NoteStore) (j : Nat)
    (nt nc : Option (Option String)) (na : Option Bool) (clu : Option Nat)
    (now : Nat) (h : StoreInv s) :
    StoreInv (updateNote s j nt nc na clu now) := by
  obtain ⟨hpw, hlt⟩ := h
  constructor
  · show ((s.rows.map _).map Note.id).Pairwise (· < ·)
    rw [List.map_map]
    have hcomp : (Note.id ∘
        fun r => if r.id == j then saveFields nt nc na now r else r) =
        Note.id := by
      funext r
      exact updateFun_id j nt nc na now r
    rw [hcomp]
    exact hpw
  · intro n hn
    obtain ⟨r, hr, hfr⟩ := List.mem_map.mp hn
    have hid : n.id = r.id := by
      rw [← hfr]
      exact updateFun_id j nt nc na now r
    rw [hid]
    exact hlt r hr

/-- Every operation preserves the id invariant. -/
theorem storeInv_execOp (s : NoteStore) (op : Op) (h : StoreInv s) :
    StoreInv (execOp s op) := by
  cases op with
  | create t c a clu now => exact storeInv_createNote s t c a clu now h
  | update j nt nc na clu now => exact storeInv_updateNote s j nt nc na clu now h
  | softDel j now => exact storeInv_updateNote s j none none (some false) none now h

/-- Every operation sequence preserves the id invariant. -/
theorem storeInv_execOps (ops : List Op) (s : NoteStore) (h : StoreInv s) :
    StoreInv (execOps s ops) := by
  induction ops generalizing s with
  | nil => exact h
  | cons op ops ih => exact ih (execOp s op) (storeInv_execOp s op h)

/-- The empty store satisfies the id invariant. -/
theorem storeInv_emptyStore : StoreInv emptyStore :=
  ⟨List.Pairwise.nil, fun n hn => absurd hn (List.not_mem_nil n)⟩

/-! The claims. -/

/-- C1: for every Note row and every write operation (create or update,
soft delete included) executed at the current wall-clock time — which,
the clock being a clock, is at least every timestamp already stored —
the row's `last_updated_on` after the write is greater than or equal to
its value before the write. -/
theorem last_updated_on_monotone (s : NoteStore) (op : Op) (i : Nat)
    (n n' : Note)
    (hclock : ∀ m ∈ s.rows, m.last_updated_on ≤ op.time)
    (hn : getNote s i = some n)
    (hn' : getNote (execOp s op) i = some n') :
    n.last_updated_on ≤ n'.last_updated_on := by
  have hmem : n ∈ s.rows := List.mem_of_find?_eq_some hn
  cases op with
  | create t c a clu now =>
    have h2 : getNote (execOp s (Op.create t c a clu now)) i = some n := by
      show ((s.rows ++ [_]).find? fun r => r.id == i) = some n
      rw [List.find?_append,
        show s.rows.find? (fun r => r.id == i) = some n from hn]
      rfl
    rw [h2] at hn'
    cases hn'
    exact Nat.le_refl _
  | update j nt nc na clu now =>
    rw [show execOp s (Op.update j nt nc na clu now) =
        updateNote s j nt nc na clu now from rfl,
      getNote_updateNote s i j nt nc na clu now, hn] at hn'
    have h3 : (if n.id == j then saveFields nt nc na now n else n) = n' :=
      Option.some.inj hn'
    rw [← h3]
    cases hj : (n.id == j) with
    | false => simp [hj]
    | true =>
      simp [hj, saveFields]
      exact hclock n hmem
  | softDel j now =>
    rw [show execOp s (Op.softDel j now) =
        updateNote s j none none (some false) none now from rfl,
      getNote_updateNote s i j none none (some false) none now, hn] at hn'
    have h3 :
        (if n.id == j then saveFields none none (some false) now n else n) =
          n' :=
      Option.some.inj hn'
    rw [← h3]
    cases hj : (n.id == j) with
    | false => simp [hj]
    | true =>
      simp [hj, saveFields]
      exact hclock n hmem

/-- C2: logically deleting a Note persists `is_active = false` on
subsequent reads of the row and changes nothing but `is_active` and
`last_updated_on`: `id`, `title` and `content` are those of the old row. -/
theorem softDelete_persists_and_frames (s : NoteStore) (i now : Nat)
    (n : Note) (hn : getNote s i = some n) :
    getNote (softDelete s i now) i =
      some { n with is_active := false, last_updated_on := now } :=
  getNote_updateNote_self s i none none (some false) none now n hn

/-- C3: in every store reachable from the freshly migrated store, the
row ids are pairwise distinct, strictly increasing in creation order,
and all below the auto-increment counter, so an assigned id is never
reused. -/
theorem ids_unique_strictly_increasing (ops : List Op) :
    ((execOps emptyStore ops).rows.map Note.id).Pairwise (· < ·) ∧
    ((execOps emptyStore ops).rows.map Note.id).Nodup ∧
    ∀ n ∈ (execOps emptyStore ops).rows,
      n.id < (execOps emptyStore ops).nextId := by
  obtain ⟨hpw, hlt⟩ := storeInv_execOps ops emptyStore storeInv_emptyStore
  exact ⟨hpw, List.Pairwise.imp Nat.ne_of_lt hpw, hlt⟩

/-- C4: creating a Note with no title and no content succeeds, and
reading the created row back returns `none` for both fields. -/
theorem create_succeeds_with_null_fields (s : NoteStore) (clu : Option Nat)
    (now : Nat) (hfresh : ∀ m ∈ s.rows, m.id < s.nextId) :
    (createNote s none none none clu now).2.title = none ∧
    (createNote s none none none clu now).2.content = none ∧
    getNote (createNote s none none none clu now).1
        (createNote s none none none clu now).2.id =
      some (createNote s none none none clu now).2 := by
  refine ⟨rfl, rfl, ?_⟩
  have hnone : s.rows.find? (fun r => r.id == s.nextId) = none := by
    rw [List.find?_eq_none]
    intro m hm
    simp only [beq_iff_eq]
    exact Nat.ne_of_lt (hfresh m hm)
  show ((s.rows ++ [_]).find? fun r : Note => r.id == s.nextId) = _
  rw [List.find?_append, hnone]
  simp [createNote]

/-- C5: a created Note has `is_active = true` unless a different value is
explicitly supplied at creation, in which case it has that value. -/
theorem create_default_is_active (s : NoteStore) (t c : Option String)
    (clu : Option Nat) (now : Nat) :
    (createNote s t c none clu now).2.is_active = true ∧
    ∀ b : Bool, (createNote s t c (some b) clu now).2.is_active = b :=
  ⟨rfl, fun _ => rfl⟩

/-- C6: the listing operation returns the collection of Notes sorted by
`last_updated_on`: its output is sorted under `luLE` and is a permutation
of the stored rows. -/
theorem listNotes_sorted_by_last_updated_on (s : NoteStore) :
    (listNotes s).Sorted luLE ∧ (listNotes s).Perm s.rows :=
  ⟨List.sorted_insertionSort luLE s.rows, List.perm_insertionSort luLE s.rows⟩

/-- C7: every write stamps `last_updated_on` with the time of that write,
and a caller-supplied value for it never determines the stored value:
create and update are invariant under changing the supplied `clientLU`,
and the row read back after an update carries the write time. -/
theorem auto_now_stamps_every_write (s : NoteStore) (i now : Nat)
    (t c : Option String) (a : Option Bool)
    (nt nc : Option (Option String)) (na : Option Bool)
    (clu clu' : Option Nat) (n : Note)
    (hn : getNote s i = some n) :
    (createNote s t c a clu now).2.last_updated_on = now ∧
    createNote s t c a clu now = createNote s t c a clu' now ∧
    updateNote s i nt nc na clu now = updateNote s i nt nc na clu' now ∧
    getNote (updateNote s i nt nc na clu now) i =
      some (saveFields nt nc na now n) ∧
    (saveFields nt nc na now n).last_updated_on = now :=
  ⟨rfl, rfl, rfl, getNote_updateNote_self s i nt nc na clu now n hn, rfl⟩

/-- C8: no operation physically removes a row: the row count never
decreases, and a Note present in the store is still present (under its
id) after any operation. -/
theorem no_physical_removal (s : NoteStore) (op : Op) (n : Note)
    (hn : n ∈ s.rows) :
    s.rows.length ≤ (execOp s op).rows.length ∧
    ∃ n' ∈ (execOp s op).rows, n'.id = n.id := by
  cases op with
  | create t c a clu now =>
    constructor
    · show s.rows.length ≤ (s.rows ++ [_]).length
      rw [List.length_append]
      exact Nat.le_add_right _ _
    · exact ⟨n, List.mem_append_left _ hn, rfl⟩
  | update j nt nc na clu now =>
    constructor
    · simp [execOp, updateNote]
    · refine ⟨if n.id == j then saveFields nt nc na now n else n, ?_,
        updateFun_id j nt nc na now n⟩
      show _ ∈ s.rows.map fun r =>
        if r.id == j then saveFields nt nc na now r else r
      exact List.mem_map_of_mem _ hn
  | softDel j now =>
    constructor
    · simp [execOp, softDelete, updateNote]
    · refine ⟨if n.id == j then saveFields none none (some false) now n else n,
        ?_, updateFun_id j none none (some false) now n⟩
      show _ ∈ s.rows.map fun r =>
        if r.id == j then saveFields none none (some false) now r else r
      exact List.mem_map_of_mem _ hn

/-- C9: `__str__` returns the `title` field unchanged, so on a note whose
title is a text it yields that text, while on a note created without a
title — a state the public create operation permits — it yields no text
value (the Python `TypeError` branch is reachable). -/
theorem str_returns_title (s : NoteStore) (n : Note) (tt : String)
    (clu : Option Nat) (now : Nat) (h : n.title = some tt) :
    noteStr n = some tt ∧
    noteStr (createNote s none none none clu now).2 = none :=
  ⟨h, rfl⟩

/-- C10: the initial migration declares exactly the schema of the model:
its column list is the auto-created 64-bit auto-increment primary key
`id` followed, field for field with identical type, nullability and
default, by the fields declared on the `Note` model class. -/
theorem migration_matches_model :
    migrationNoteFields = migrationIdField :: modelNoteFields ∧
    migrationIdField.ftype = FieldType.bigAuto ∧
    migrationIdField.primary_key = true ∧
    migrationIdField.auto_created = true :=
  ⟨rfl, rfl, rfl, rfl⟩

/-! Concrete instantiations of the theorems with hypotheses. -/

/-- C1 at a concrete store: updating the sample row at time 7 does not
decrease its `last_updated_on` of 5. -/
theorem last_updated_on_monotone_witness :
    sampleNote.last_updated_on ≤
      (⟨1, some "t", some "x", 7, true⟩ : Note).last_updated_on :=
  last_updated_on_monotone sampleStore
    (Op.update 1 none (some (some "x")) none none 7) 1 sampleNote
    ⟨1, some "t", some "x", 7, true⟩ (by decide) (by decide) (by decide)

/-- C2 at a concrete store: soft-deleting the sample row at time 9. -/
theorem softDelete_persists_and_frames_witness :
    getNote (softDelete sampleStore 1 9) 1 =
      some { sampleNote with is_active := false, last_updated_on := 9 } :=
  softDelete_persists_and_frames sampleStore 1 9 sampleNote (by decide)

/-- C4 at a concrete store: creating a note without title or content at
time 3. -/
theorem create_succeeds_with_null_fields_witness :
    (createNote sampleStore none none none none 3).2.title = none ∧
    (createNote sampleStore none none none none 3).2.content = none ∧
    getNote (createNote sampleStore none none none none 3).1
        (createNote sampleStore none none none none 3).2.id =
      some (createNote sampleStore none none none none 3).2 :=
  create_succeeds_with_null_fields sampleStore none 3 (by decide)

/-- C7 at a concrete store: writes at time 4 with caller-supplied
timestamps 99 and 0, which make no difference. -/
theorem auto_now_stamps_every_write_witness :
    (createNote sampleStore (some "a") none none (some 99) 4).2.last_updated_on
      = 4 ∧
    createNote sampleStore (some "a") none none (some 99) 4 =
      createNote sampleStore (some "a") none none (some 0) 4 ∧
    updateNote sampleStore 1 none (some (some "b")) none (some 99) 4 =
      updateNote sampleStore 1 none (some (some "b")) none (some 0) 4 ∧
    getNote (updateNote sampleStore 1 none (some (some "b")) none (some 99) 4)
        1 =
      some (saveFields none (some (some "b")) none 4 sampleNote) ∧
    (saveFields none (some (some "b")) none 4 sampleNote).last_updated_on = 4 :=
  auto_now_stamps_every_write sampleStore 1 4 (some "a") none none none
    (some (some "b")) none (some 99) (some 0) sampleNote (by decide)

/-- C8 at a concrete store: soft deletion at time 8 removes no row. -/
theorem no_physical_removal_witness :
    sampleStore.rows.length ≤
      (execOp sampleStore (Op.softDel 1 8)).rows.length ∧
    ∃ n' ∈ (execOp sampleStore (Op.softDel 1 8)).rows,
      n'.id = sampleNote.id :=
  no_physical_removal sampleStore (Op.softDel 1 8) sampleNote (by decide)

/-- C9 at a concrete note: string conversion of the sample note yields
its title, while on a note created with no title it yields no text. -/
theorem str_returns_title_witness :
    noteStr sampleNote = some "t" ∧
    noteStr (createNote sampleStore none none none none 2).2 = none :=
  str_returns_title sampleStore sampleNote "t" none 2 (by decide)
